import Mathlib

/-!
Verification development for the `ai-cli` command-line client
(`src/ai-cli.py`): a shallow embedding of its transport client
(`AIClient.check_connection`, `AIClient.list_models`, `AIClient.chat`,
`AIClient.chat_stream`), of the streaming-line decode loop, and of the
interactive session loop of `AICLI.cmd_chat`, together with theorems about
the specified behaviour.

Machine-level conventions of the embedding:
* HTTP outcomes are explicit values (`HttpOutcome`): either the exception
  `requests` raises (rendered to its message string) or a response with a
  status code and a body string.
* Python's `json.loads` is embedded as `json_loads` below, a recursive
  descent parser over the characters of the line.  Numbers are restricted
  to the integer fragment of JSON (no claim involves non-integer numbers);
  `\u` escapes denoting surrogate code units are rejected since Lean's
  `Char` only holds scalar values.  On every input appearing in this file
  the parser agrees with `json.loads`.
* Python dict semantics for parsed objects: a duplicate key keeps the last
  binding, so lookup scans the field list from the right (`jlookup`).
-/

namespace AiCli

/-- JSON values as produced by the Python `json` module: `null`, booleans,
(integer) numbers, strings, arrays and objects.  An object is kept as its
member list in source order; lookup mimics `dict` semantics. -/
inductive Json where
  | null : Json
  | bool : Bool → Json
  | num : Int → Json
  | str : String → Json
  | arr : List Json → Json
  | obj : List (String × Json) → Json

/-- Dict lookup on a parsed object: Python's `dict` built by `json.loads`
keeps the last binding of a duplicated key, so we scan from the right. -/
def jlookup (fields : List (String × Json)) (k : String) : Option Json :=
  (fields.reverse.find? (fun p => p.1 == k)).map (fun p => p.2)

/-- Whitespace skipping of the JSON grammar (space, tab, newline, return). -/
def skipWs : List Char → List Char
  | [] => []
  | c :: cs =>
    if c = ' ' || c = '\t' || c = '\n' || c = '\r' then skipWs cs else c :: cs

/-- Value of a hexadecimal digit, used for string `\u` escapes. -/
def hexDigitVal (c : Char) : Option Nat :=
  if '0' ≤ c ∧ c ≤ '9' then some (c.toNat - '0'.toNat)
  else if 'a' ≤ c ∧ c ≤ 'f' then some (c.toNat - 'a'.toNat + 10)
  else if 'A' ≤ c ∧ c ≤ 'F' then some (c.toNat - 'A'.toNat + 10)
  else none

/-- Single-character string escapes of JSON. -/
def escChar : Char → Option Char
  | '"' => some '"'
  | '\\' => some '\\'
  | '/' => some '/'
  | 'b' => some (Char.ofNat 8)
  | 'f' => some (Char.ofNat 12)
  | 'n' => some '\n'
  | 'r' => some '\r'
  | 't' => some '\t'
  | _ => none

/-- Parse the remainder of a JSON string after the opening quote, returning
the string's characters and the input after the closing quote.  Raw control
characters are rejected, as by `json.loads`; `\u` escapes of surrogate code
units are outside the model (see the header comment). -/
def parseStringRest : List Char → Option (List Char × List Char)
  | [] => none
  | '"' :: rest => some ([], rest)
  | '\\' :: 'u' :: a :: b :: c :: d :: rest =>
    match hexDigitVal a, hexDigitVal b, hexDigitVal c, hexDigitVal d with
    | some ha, some hb, some hc, some hd =>
      let n := ((ha * 16 + hb) * 16 + hc) * 16 + hd
      if 0xD800 ≤ n ∧ n ≤ 0xDFFF then none
      else (parseStringRest rest).map (fun p => (Char.ofNat n :: p.1, p.2))
    | _, _, _, _ => none
  | '\\' :: e :: rest =>
    match escChar e with
    | some c => (parseStringRest rest).map (fun p => (c :: p.1, p.2))
    | none => none
  | c :: rest =>
    if c.toNat < 32 then none
    else (parseStringRest rest).map (fun p => (c :: p.1, p.2))

/-- Take a maximal run of decimal digits. -/
def takeDigits : List Char → List Char × List Char
  | [] => ([], [])
  | c :: cs =>
    if c.isDigit then
      let p := takeDigits cs
      (c :: p.1, p.2)
    else ([], c :: cs)

/-- Numeric value of a digit run. -/
def digitsToNat (ds : List Char) : Nat :=
  ds.foldl (fun acc c => acc * 10 + (c.toNat - '0'.toNat)) 0

/-- Parse an integer JSON number token (optional minus sign, digit run, no
leading zeros).  A following `.`, `e` or `E` would begin a non-integer
number, which is outside the modelled fragment, so it is rejected. -/
def parseIntToken (cs : List Char) : Option (Json × List Char) :=
  let signed := cs.head? = some '-'
  let body := if signed then cs.tail else cs
  let p := takeDigits body
  if p.1 = [] then none
  else if p.1.length > 1 ∧ p.1.head? = some '0' then none
  else if p.2.head? = some '.' ∨ p.2.head? = some 'e' ∨ p.2.head? = some 'E' then none
  else
    let n : Int := Int.ofNat (digitsToNat p.1)
    some (Json.num (if signed then -n else n), p.2)

mutual

/-- Parse one JSON value, returning it and the remaining input.  The fuel
argument strictly decreases on every recursive call; `json_loads` supplies
more fuel than any input can consume. -/
def parseValue : Nat → List Char → Option (Json × List Char)
  | 0, _ => none
  | fuel + 1, cs =>
    match skipWs cs with
    | 'n' :: 'u' :: 'l' :: 'l' :: rest => some (Json.null, rest)
    | 't' :: 'r' :: 'u' :: 'e' :: rest => some (Json.bool true, rest)
    | 'f' :: 'a' :: 'l' :: 's' :: 'e' :: rest => some (Json.bool false, rest)
    | '"' :: rest => (parseStringRest rest).map (fun p => (Json.str (String.mk p.1), p.2))
    | '\x7b' :: rest => (parseObjItems fuel rest).map (fun p => (Json.obj p.1, p.2))
    | '[' :: rest => (parseArrayItems fuel rest).map (fun p => (Json.arr p.1, p.2))
    | c :: rest =>
      if c.isDigit || c = '-' then parseIntToken (c :: rest) else none
    | [] => none

/-- Parse the members of an array after `[`: either an immediate `]` or a
comma-separated member list. -/
def parseArrayItems : Nat → List Char → Option (List Json × List Char)
  | 0, _ => none
  | fuel + 1, cs =>
    match skipWs cs with
    | ']' :: rest => some ([], rest)
    | cs' => parseArrayRest fuel cs'

/-- Parse one array member and then either `, members` or `]`. -/
def parseArrayRest : Nat → List Char → Option (List Json × List Char)
  | 0, _ => none
  | fuel + 1, cs =>
    match parseValue fuel cs with
    | none => none
    | some (v, r) =>
      match skipWs r with
      | ',' :: r2 => (parseArrayRest fuel r2).map (fun p => (v :: p.1, p.2))
      | ']' :: r2 => some ([v], r2)
      | _ => none

/-- Parse the members of an object after the opening brace: either an
immediate closing brace or a comma-separated member list. -/
def parseObjItems : Nat → List Char → Option (List (String × Json) × List Char)
  | 0, _ => none
  | fuel + 1, cs =>
    match skipWs cs with
    | '\x7d' :: rest => some ([], rest)
    | cs' => parseObjRest fuel cs'

/-- Parse one `"key": value` object member and then either a comma and more
members or the closing brace. -/
def parseObjRest : Nat → List Char → Option (List (String × Json) × List Char)
  | 0, _ => none
  | fuel + 1, cs =>
    match skipWs cs with
    | '"' :: rest =>
      match parseStringRest rest with
      | none => none
      | some (key, r) =>
        match skipWs r with
        | ':' :: r2 =>
          match parseValue fuel r2 with
          | none => none
          | some (v, r3) =>
            match skipWs r3 with
            | ',' :: r4 =>
              (parseObjRest fuel r4).map (fun p => ((String.mk key, v) :: p.1, p.2))
            | '\x7d' :: r4 => some ([(String.mk key, v)], r4)
            | _ => none
        | _ => none
    | _ => none

end

/-- Embedding of Python's `json.loads` on one line: parse a single JSON
value and require only whitespace to remain.  `none` models a raised
`json.JSONDecodeError`. -/
def json_loads (s : String) : Option Json :=
  match parseValue (s.length + 1) s.data with
  | some (v, rest) => if skipWs rest = [] then some v else none
  | none => none

/-- Outcome of one HTTP call made through `requests`: either the call raised
(timeout, refused connection, DNS failure, connection reset), rendered to the
exception's message string as Python's string formatting would, or a response
with a status code and a body string arrived. -/
inductive HttpOutcome where
  | failure : String → HttpOutcome
  | response : Nat → String → HttpOutcome

/-- Text Python renders for the exception raised inside `AIClient.chat`'s
`try` block when a 200 body is not valid JSON (`json.JSONDecodeError`) or is
valid JSON but not an object, so that `.get` is missing (`AttributeError`).
The wording depends on the Python runtime; no theorem below depends on it,
only on the branch being taken. -/
def excText (body : String) : String := "body not a JSON object: " ++ body

/-- Text Python renders for the `TypeError` raised when the `in` operator or
indexing is applied to a non-container streamed line (see `decodeEvents`).
The wording depends on the Python runtime; no theorem below depends on it. -/
def typeErrText : String := "argument is not a container"

/-- Embedding of `AIClient.check_connection` (src/ai-cli.py:30-36) as a
function of the probe's outcome: `requests.get(base/api/tags, timeout=5)`
either raises — caught by the bare `except`, returning `False` — or returns
a response, and the method returns `status_code == 200`. -/
def check_connection (probe : HttpOutcome) : Bool :=
  match probe with
  | .failure _ => false
  | .response status _ => status == 200

/-- Embedding of `AIClient.list_models` (src/ai-cli.py:38-46) as a function
of the catalog request's outcome.  On a 200 the code runs
`response.json().get("models", [])`: an unparseable body raises
`json.JSONDecodeError` and a non-dict body raises `AttributeError` at
`.get`, both caught by the bare `except` returning `[]`; a dict returns its
last `"models"` binding, whatever its type, defaulting to `[]`.  Non-200
statuses and transport failures return `[]`. -/
def list_models (outcome : HttpOutcome) : Json :=
  match outcome with
  | .failure _ => Json.arr []
  | .response status body =>
    if status = 200 then
      match json_loads body with
      | some (Json.obj fields) => (jlookup fields "models").getD (Json.arr [])
      | _ => Json.arr []
    else Json.arr []

/-- Embedding of the non-streaming `AIClient.chat` (src/ai-cli.py:48-74) as
a function of the POST's outcome.  The returned Python value is modelled as
a `Json` value: every string the method builds appears as `Json.str`, and a
non-string `"response"` field is returned as the parsed value itself, as
`dict.get` would.  Branches, in source order: a raised request is caught and
rendered as `"Connection error: {e}"`; a 200 response is parsed
(`response.json()`, whose own exceptions are caught by the same handler) and
its `"response"` field extracted with default `"No response received"`; any
other status yields `"Error: {status} - {body}"`. -/
def chat (outcome : HttpOutcome) : Json :=
  match outcome with
  | .failure cause => Json.str ("Connection error: " ++ cause)
  | .response status body =>
    if status = 200 then
      match json_loads body with
      | some (Json.obj fields) => (jlookup fields "response").getD (Json.str "No response received")
      | some _ => Json.str ("Connection error: " ++ excText body)
      | none => Json.str ("Connection error: " ++ excText body)
    else Json.str ("Error: " ++ toString status ++ " - " ++ body)

/-- One event observed by `chat_stream`'s `for line in response.iter_lines()`
loop: either the iterator yields a line, or it raises mid-iteration
(connection reset, read timeout), rendered to the exception's message. -/
inductive StreamEvent where
  | line : String → StreamEvent
  | raiseExc : String → StreamEvent

/-- Outcome of the streaming POST in `AIClient.chat_stream`: either
`requests.post` itself raises, or a response stream is opened whose
`iter_lines` iterator produces the given events in order (ending at
end-of-stream after the last one). -/
inductive StreamOutcome where
  | postFailure : String → StreamOutcome
  | stream : List StreamEvent → StreamOutcome

/-- Decide whether `hay` starts with `needle` (character lists). -/
def listStartsWith : List Char → List Char → Bool
  | [], _ => true
  | _ :: _, [] => false
  | n :: ns, h :: hs => n == h && listStartsWith ns hs

/-- Decide whether `needle` occurs as a contiguous infix of `hay`, which is
what Python's `in` operator tests on strings. -/
def listInfix (needle : List Char) : List Char → Bool
  | [] => listStartsWith needle []
  | h :: hs => listStartsWith needle (h :: hs) || listInfix needle hs

/-- Chunk a single streamed line contributes, if any: the line must be
non-empty, parse as a JSON object and carry a `"response"` member (of any
type), exactly the guard `if "response" in data` of src/ai-cli.py:102. -/
def lineChunk (l : String) : Option Json :=
  if l = "" then none
  else
    match json_loads l with
    | some (Json.obj fields) => jlookup fields "response"
    | _ => none

/-- Embedding of the body of `AIClient.chat_stream`'s `for` loop over
`iter_lines` (src/ai-cli.py:98-108), processing the event list in order.
Per line, in source order: a falsy (empty) line is skipped; `json.loads` is
attempted, a `json.JSONDecodeError` is caught by the inner handler and the
loop continues; on a parsed object, `if "response" in data` yields
`data["response"]` (dict-key test and lookup).  A parsed non-object makes
`"response" in data` either raise `TypeError` (numbers, booleans, `null`),
or test substring membership (strings) or element membership (arrays) where
a positive test makes `data["response"]` raise `TypeError`; any such raise,
and any raise out of `iter_lines` itself, is caught by the outer
`except Exception`, which yields one final `"Connection error: {e}"` chunk,
after which the generator is exhausted. -/
def decodeEvents : List StreamEvent → List Json
  | [] => []
  | StreamEvent.raiseExc cause :: _ => [Json.str ("Connection error: " ++ cause)]
  | StreamEvent.line l :: rest =>
    if l = "" then decodeEvents rest
    else
      match json_loads l with
      | none => decodeEvents rest
      | some (Json.obj fields) =>
        match jlookup fields "response" with
        | some v => v :: decodeEvents rest
        | none => decodeEvents rest
      | some (Json.str s) =>
        if listInfix "response".data s.data then [Json.str ("Connection error: " ++ typeErrText)]
        else decodeEvents rest
      | some (Json.arr items) =>
        if items.any (fun j => match j with | Json.str s => s == "response" | _ => false) then
          [Json.str ("Connection error: " ++ typeErrText)]
        else decodeEvents rest
      | some _ => [Json.str ("Connection error: " ++ typeErrText)]

/-- Embedding of `AIClient.chat_stream` (src/ai-cli.py:76-108) as a function
of the streaming POST's outcome: the full (finite) chunk sequence the
generator produces.  If `requests.post` raises, the outer handler yields the
single `"Connection error: {e}"` chunk; otherwise the line loop runs. -/
def chat_stream (outcome : StreamOutcome) : List Json :=
  match outcome with
  | .postFailure cause => [Json.str ("Connection error: " ++ cause)]
  | .stream events => decodeEvents events

/-- Classification used to state decoder properties: a line is good when it
is empty, fails to parse, or parses to a JSON object — i.e. when it cannot
take `decodeEvents`' `TypeError` branch. -/
def goodLine (l : String) : Bool :=
  if l = "" then true
  else
    match json_loads l with
    | none => true
    | some (Json.obj _) => true
    | some _ => false

/-- Classification of a line a well-behaved streaming server emits: empty
(keep-alive), or a JSON object whose `"response"` member, when present, is a
string. -/
def serverLine (l : String) : Bool :=
  if l = "" then true
  else
    match json_loads l with
    | some (Json.obj fields) =>
      match jlookup fields "response" with
      | some (Json.str _) => true
      | none => true
      | some _ => false
    | _ => false

/-- String fragment a well-behaved server line contributes, if any. -/
def lineFragStr (l : String) : Option String :=
  match lineChunk l with
  | some (Json.str s) => some s
  | _ => none

/-- Concatenate a chunk list into the full response text, defined when
every chunk is a string (as every chunk of a well-behaved stream is). -/
def concatChunks : List Json → Option String
  | [] => some ""
  | Json.str s :: rest => (concatChunks rest).map (fun t => s ++ t)
  | _ :: _ => none

/-- Concatenation of a fragment list into the full response text. -/
def joinFrags (ss : List String) : String :=
  ss.foldr (fun s t => s ++ t) ""

/-- Lowercasing of one character as Python's `str.lower` does on the ASCII
range (no input in this development leaves it). -/
def lowerChar (c : Char) : Char :=
  if 'A' ≤ c ∧ c ≤ 'Z' then Char.ofNat (c.toNat + 32) else c

/-- Embedding of Python's `str.lower`, applied by the interactive loop to
each input before comparing it against the control commands. -/
def pyLower (s : String) : String :=
  String.mk (s.data.map lowerChar)

/-- One read of the interactive loop of `AICLI.cmd_chat`
(src/ai-cli.py:170-202): the `input()` call either returns a line of text or
raises `KeyboardInterrupt` (Ctrl-C), which the loop catches. -/
inductive SessionInput where
  | text : String → SessionInput
  | interrupt : SessionInput

/-- Action one iteration of the interactive loop performs, in order of the
source's checks: print the farewell and break; show the interactive help;
clear the screen; list models (a network GET); or dispatch the message to
the model (a network POST via `chat` or `chat_stream`, then print). -/
inductive SessionAction where
  | printGoodbye : SessionAction
  | showHelp : SessionAction
  | clearScreen : SessionAction
  | showModels : SessionAction
  | dispatch : String → SessionAction
deriving DecidableEq

/-- Exit command aliases of the interactive loop (src/ai-cli.py:174). -/
def exitCommands : List String := ["/quit", "/exit", "/q"]

/-- One iteration of the interactive loop body, as a function of the input
event: the actions performed and whether the loop continues.  Checks are in
source order: exit aliases (on the lowercased input), `/help`, `/clear`,
`/models`, then the whitespace-only guard, then dispatch; a
`KeyboardInterrupt` prints the farewell and breaks. -/
def interactiveStep (input : SessionInput) : List SessionAction × Bool :=
  match input with
  | .interrupt => ([SessionAction.printGoodbye], false)
  | .text m =>
    if exitCommands.contains (pyLower m) then ([SessionAction.printGoodbye], false)
    else if pyLower m == "/help" then ([SessionAction.showHelp], true)
    else if pyLower m == "/clear" then ([SessionAction.clearScreen], true)
    else if pyLower m == "/models" then ([SessionAction.showModels], true)
    else if m.trim == "" then ([], true)
    else ([SessionAction.dispatch m], true)

/-- The interactive loop run on a list of successive input events: the
actions performed, stopping at the first terminating step (further inputs
are never read). -/
def interactiveLoop : List SessionInput → List SessionAction
  | [] => []
  | i :: rest =>
    let step := interactiveStep i
    step.1 ++ (if step.2 then interactiveLoop rest else [])

/-- A network call the client can make: the model-listing GET
(`/api/tags`, used by the availability probe and by `list_models`) or the
generation POST (`/api/generate`, used by `chat` and `chat_stream`). -/
inductive NetCall where
  | getTags : NetCall
  | postGenerate : NetCall
deriving DecidableEq

/-- Externally observable event of one command run, in order: a network
call, one of the error messages the command prints, or ordinary output
(responses, listings, farewells). -/
inductive Event where
  | net : NetCall → Event
  | errUnavailable : Event
  | errFileNotFound : Event
  | errFileRead : Event
  | output : Event
deriving DecidableEq

/-- Environment one command invocation runs against: the outcome of the
availability probe's GET, whether the referenced path is a regular file
(`os.path.isfile`), and whether opening and decoding it succeeds. -/
structure World where
  probe : HttpOutcome
  isFile : Bool
  fileReadable : Bool

/-- A CLI command invocation, as dispatched by `main`
(src/ai-cli.py:452-465).  `chatSingle` is `cmd_chat` with a non-empty
message argument, `chatInteractive` is `cmd_chat` in interactive mode with
the given inputs. -/
inductive Command where
  | chatSingle : String → Command
  | chatInteractive : List SessionInput → Command
  | code : String → Command
  | explain : String → Command
  | translate : String → String → Command
  | summarize : String → Command
  | review : String → Command
  | models : Command

/-- Events one interactive-loop action produces: `/models` renders
`list_models` (a GET), a dispatched message is POSTed and its response
printed, everything else is local output. -/
def actionEvents : SessionAction → List Event
  | SessionAction.showModels => [Event.net NetCall.getTags, Event.output]
  | SessionAction.dispatch _ => [Event.net NetCall.postGenerate, Event.output]
  | _ => [Event.output]

/-- Event trace of one command invocation, following the source's control
flow.  Every `cmd_*` except `models` first runs `check_ollama_status`
(src/ai-cli.py:137-143), which performs the probe GET and on failure prints
the unavailable message and stops the command.  `explain` and `summarize`
read the referenced path only when it is a regular file and abort on a read
error (src/ai-cli.py:233-240, 287-295); `review` first requires the path to
be a regular file and then aborts on a read error (src/ai-cli.py:326-335).
The `models` subcommand calls `AICLI.list_models` directly, with no probe
(src/ai-cli.py:464-465, 351-357). -/
def commandEvents (c : Command) (w : World) : List Event :=
  match c with
  | .models => [Event.net NetCall.getTags, Event.output]
  | .chatSingle _ =>
    Event.net NetCall.getTags ::
      (if check_connection w.probe then [Event.net NetCall.postGenerate, Event.output]
       else [Event.errUnavailable])
  | .code _ =>
    Event.net NetCall.getTags ::
      (if check_connection w.probe then [Event.net NetCall.postGenerate, Event.output]
       else [Event.errUnavailable])
  | .translate _ _ =>
    Event.net NetCall.getTags ::
      (if check_connection w.probe then [Event.net NetCall.postGenerate, Event.output]
       else [Event.errUnavailable])
  | .chatInteractive inputs =>
    Event.net NetCall.getTags ::
      (if check_connection w.probe then ((interactiveLoop inputs).map actionEvents).flatten
       else [Event.errUnavailable])
  | .explain _ =>
    Event.net NetCall.getTags ::
      (if check_connection w.probe then
        (if w.isFile && !w.fileReadable then [Event.errFileRead]
         else [Event.net NetCall.postGenerate, Event.output])
       else [Event.errUnavailable])
  | .summarize _ =>
    Event.net NetCall.getTags ::
      (if check_connection w.probe then
        (if w.isFile && !w.fileReadable then [Event.errFileRead]
         else [Event.net NetCall.postGenerate, Event.output])
       else [Event.errUnavailable])
  | .review _ =>
    Event.net NetCall.getTags ::
      (if check_connection w.probe then
        (if !w.isFile then [Event.errFileNotFound]
         else if !w.fileReadable then [Event.errFileRead]
         else [Event.net NetCall.postGenerate, Event.output])
       else [Event.errUnavailable])

/-- Probe outcomes the spec classifies as failures: a raised request
(network error, timeout) or a non-2xx status. -/
def ProbeFails (o : HttpOutcome) : Prop :=
  match o with
  | .failure _ => True
  | .response status _ => ¬ (200 ≤ status ∧ status < 300)

/-! Helper lemmas shared by the claim theorems. -/

/-- On lines that cannot take the `TypeError` branch, the decode loop is a
`filterMap`: each line contributes its `lineChunk`, if any, and the loop
then continues with the remaining events. -/
theorem decode_goodLines (ls : List String) (tail : List StreamEvent)
    (h : ∀ l ∈ ls, goodLine l = true) :
    decodeEvents (ls.map StreamEvent.line ++ tail)
      = ls.filterMap lineChunk ++ decodeEvents tail := by
  induction ls with
  | nil => simp
  | cons l ls ih =>
    have hl : goodLine l = true := h l (by simp)
    have ih' := ih (fun x hx => h x (by simp [hx]))
    simp only [List.map_cons, List.cons_append, List.filterMap_cons]
    by_cases he : l = ""
    · simp [decodeEvents, he, lineChunk, ih']
    · cases hj : json_loads l with
      | none => simp [decodeEvents, he, lineChunk, hj, ih']
      | some j =>
        cases j with
        | obj fields =>
          cases hlk : jlookup fields "response" with
          | none => simp [decodeEvents, he, lineChunk, hj, hlk, ih']
          | some v => simp [decodeEvents, he, lineChunk, hj, hlk, ih']
        | null => simp [goodLine, he, hj] at hl
        | bool b => simp [goodLine, he, hj] at hl
        | num n => simp [goodLine, he, hj] at hl
        | str s => simp [goodLine, he, hj] at hl
        | arr items => simp [goodLine, he, hj] at hl

/-- A well-behaved server line is in particular a line that cannot take the
`TypeError` branch. -/
theorem serverLine_goodLine (l : String) (h : serverLine l = true) : goodLine l = true := by
  by_cases he : l = ""
  · simp [goodLine, he]
  · cases hj : json_loads l with
    | none => simp [goodLine, he, hj]
    | some j =>
      cases j with
      | obj fields => simp [goodLine, he, hj]
      | null => simp [serverLine, he, hj] at h
      | bool b => simp [serverLine, he, hj] at h
      | num n => simp [serverLine, he, hj] at h
      | str s => simp [serverLine, he, hj] at h
      | arr items => simp [serverLine, he, hj] at h

/-- On well-behaved server lines every emitted chunk is the line's string
fragment. -/
theorem filterMap_lineChunk_server (ls : List String)
    (h : ∀ l ∈ ls, serverLine l = true) :
    ls.filterMap lineChunk = (ls.filterMap lineFragStr).map Json.str := by
  induction ls with
  | nil => simp
  | cons l ls ih =>
    have hl : serverLine l = true := h l (by simp)
    have ih' := ih (fun x hx => h x (by simp [hx]))
    simp only [List.filterMap_cons]
    by_cases he : l = ""
    · have hc : lineChunk l = none := by simp [lineChunk, he]
      have hf : lineFragStr l = none := by simp [lineFragStr, hc]
      simp [hc, hf, ih']
    · cases hj : json_loads l with
      | none =>
        have hc : lineChunk l = none := by simp [lineChunk, he, hj]
        have hf : lineFragStr l = none := by simp [lineFragStr, hc]
        simp [hc, hf, ih']
      | some j =>
        cases j with
        | obj fields =>
          cases hlk : jlookup fields "response" with
          | none =>
            have hc : lineChunk l = none := by simp [lineChunk, he, hj, hlk]
            have hf : lineFragStr l = none := by simp [lineFragStr, hc]
            simp [hc, hf, ih']
          | some v =>
            cases v with
            | str s =>
              have hc : lineChunk l = some (Json.str s) := by simp [lineChunk, he, hj, hlk]
              have hf : lineFragStr l = some s := by simp [lineFragStr, hc]
              simp [hc, hf, ih']
            | null => simp [serverLine, he, hj, hlk] at hl
            | bool b => simp [serverLine, he, hj, hlk] at hl
            | num n => simp [serverLine, he, hj, hlk] at hl
            | arr items => simp [serverLine, he, hj, hlk] at hl
            | obj fs => simp [serverLine, he, hj, hlk] at hl
        | null => simp [serverLine, he, hj] at hl
        | bool b => simp [serverLine, he, hj] at hl
        | num n => simp [serverLine, he, hj] at hl
        | str s => simp [serverLine, he, hj] at hl
        | arr items => simp [serverLine, he, hj] at hl

/-- Concatenating a chunk list that is wholly string fragments succeeds and
gives the joined text. -/
theorem concatChunks_map_str (ss : List String) :
    concatChunks (ss.map Json.str) = some (joinFrags ss) := by
  induction ss with
  | nil => rfl
  | cons s ss ih => simp [concatChunks, joinFrags, ih]

/-- Length of a `filterMap` equals the number of elements on which the
function fires. -/
theorem length_filterMap_eq_length_filter {α β : Type} (f : α → Option β) (ls : List α) :
    (ls.filterMap f).length = (ls.filter (fun x => (f x).isSome)).length := by
  induction ls with
  | nil => rfl
  | cons x ls ih =>
    cases hx : f x with
    | none => simp [List.filterMap_cons, List.filter_cons, hx, ih]
    | some y => simp [List.filterMap_cons, List.filter_cons, hx, ih]

/-! Claim theorems. -/

/-- C1: in the interactive session an input equal, case-insensitively, to an
exit control command (the aliases `/quit` and `/exit`) makes the loop print
the farewell and terminate at once: the run performs exactly the farewell
action, later inputs are never read, and no message is dispatched to the
transport client. -/
theorem exit_alias_terminates_session (s : String) (rest : List SessionInput)
    (h : pyLower s = "/quit" ∨ pyLower s = "/exit") :
    interactiveLoop (SessionInput.text s :: rest) = [SessionAction.printGoodbye] ∧
    ∀ m : String, SessionAction.dispatch m ∉ interactiveLoop (SessionInput.text s :: rest) := by
  have hm : pyLower s ∈ exitCommands := by
    rcases h with h | h <;> rw [h] <;> decide
  have h1 : interactiveLoop (SessionInput.text s :: rest) = [SessionAction.printGoodbye] := by
    simp [interactiveLoop, interactiveStep, hm]
  refine ⟨h1, ?_⟩
  rw [h1]
  simp

/-- Witness for C1 at the concrete input `"/Quit"` followed by a further
line that is never read. -/
theorem exit_alias_terminates_session_witness :
    interactiveLoop [SessionInput.text "/Quit", SessionInput.text "2+2"]
      = [SessionAction.printGoodbye] :=
  (exit_alias_terminates_session "/Quit" [SessionInput.text "2+2"]
    (Or.inl (by decide : pyLower "/Quit" = "/quit"))).1

/-- Counterexample to C2 as stated: in a `review` run whose referenced file
is unreadable, the availability probe (a GET to the model-listing endpoint)
has already been made before the file error surfaces, so the command does
not abort before any network call — the trace contains a network call. -/
theorem file_error_probe_network_call :
    commandEvents (Command.review "code.py")
        ⟨HttpOutcome.response 200 "", true, false⟩
      = [Event.net NetCall.getTags, Event.errFileRead] ∧
    Event.net NetCall.getTags ∈
      commandEvents (Command.review "code.py")
        ⟨HttpOutcome.response 200 "", true, false⟩ := by
  refine ⟨rfl, ?_⟩
  decide

/-- C2 (amended): for every file-consuming command (`summarize`, `review`,
`explain` with a file) whose referenced input file cannot be opened or
decoded, the error is surfaced immediately and the command aborts before
any generation request (POST) is made; the availability probe GET has
already been issued by then. -/
theorem file_error_aborts_before_generate (w : World) (path : String)
    (hprobe : check_connection w.probe = true)
    (hfile : w.isFile = true) (hread : w.fileReadable = false) :
    commandEvents (Command.review path) w
      = [Event.net NetCall.getTags, Event.errFileRead] ∧
    commandEvents (Command.summarize path) w
      = [Event.net NetCall.getTags, Event.errFileRead] ∧
    commandEvents (Command.explain path) w
      = [Event.net NetCall.getTags, Event.errFileRead] := by
  refine ⟨?_, ?_, ?_⟩ <;> simp [commandEvents, hprobe, hfile, hread]

/-- Witness for C2 (amended) at a concrete world with a reachable server
and an unreadable file. -/
theorem file_error_aborts_before_generate_witness :
    commandEvents (Command.summarize "notes.txt")
        ⟨HttpOutcome.response 200 "", true, false⟩
      = [Event.net NetCall.getTags, Event.errFileRead] :=
  (file_error_aborts_before_generate
    ⟨HttpOutcome.response 200 "", true, false⟩ "notes.txt" rfl rfl rfl).2.1

/-- Counterexample to C3 as stated: observing a done/terminal marker line
does not terminate the produced chunk sequence — a fragment line after the
marker still yields its chunk, so the sequence is not ended at the marker. -/
theorem done_marker_not_terminal :
    decodeEvents [StreamEvent.line "\x7b\"done\":true\x7d",
        StreamEvent.line "\x7b\"response\":\"X\"\x7d"]
      = [Json.str "X"] ∧
    decodeEvents [StreamEvent.line "\x7b\"done\":true\x7d",
        StreamEvent.line "\x7b\"response\":\"X\"\x7d"] ≠ [] := by
  have h : decodeEvents [StreamEvent.line "\x7b\"done\":true\x7d",
      StreamEvent.line "\x7b\"response\":\"X\"\x7d"] = [Json.str "X"] := rfl
  refine ⟨h, ?_⟩
  rw [h]
  simp

/-- C3 (amended): the produced chunk sequence terminates when the transport
reaches end-of-stream; a line without a `"response"` member (such as the
done marker) contributes no chunk but does not itself terminate the
sequence.  In particular the streamed lines of Scenario B yield exactly the
chunks `"Hel"` and `"lo"`, and the sequence ends after those two chunks
because the input ends. -/
theorem stream_ends_at_eof :
    decodeEvents [StreamEvent.line "\x7b\"response\":\"Hel\"\x7d",
        StreamEvent.line "\x7b\"response\":\"lo\"\x7d",
        StreamEvent.line "\x7b\"done\":true\x7d"]
      = [Json.str "Hel", Json.str "lo"] ∧
    (∀ (l : String) (fields : List (String × Json)) (rest : List StreamEvent),
      json_loads l = some (Json.obj fields) → jlookup fields "response" = none →
      decodeEvents (StreamEvent.line l :: rest) = decodeEvents rest) ∧
    decodeEvents [] = [] := by
  refine ⟨rfl, ?_, rfl⟩
  intro l fields rest hj hlk
  have he : l ≠ "" := by
    intro hcontra
    rw [hcontra] at hj
    exact Option.noConfusion ((show json_loads "" = none from rfl) ▸ hj)
  simp [decodeEvents, he, hj, hlk]

/-- Witness for C3 (amended): the done marker line alone decodes to the
same chunk sequence as the empty stream. -/
theorem stream_ends_at_eof_witness :
    decodeEvents [StreamEvent.line "\x7b\"done\":true\x7d"] = decodeEvents [] :=
  stream_ends_at_eof.2.1 "\x7b\"done\":true\x7d" [("done", Json.bool true)] [] rfl rfl

/-- C4: over lines that are empty, malformed, or JSON objects — the shapes
the claim quantifies over — the decoder emits exactly one chunk per
well-formed line carrying a `"response"` member: the produced sequence is
the `filterMap` of the per-line chunk, so malformed and empty lines
contribute zero chunks and never terminate the sequence early, well-formed
lines without the member emit nothing, and the sequence length equals the
number of fragment-bearing well-formed lines. -/
theorem malformed_lines_never_terminate (ls : List String)
    (h : ∀ l ∈ ls, goodLine l = true) :
    decodeEvents (ls.map StreamEvent.line) = ls.filterMap lineChunk ∧
    (decodeEvents (ls.map StreamEvent.line)).length
      = (ls.filter (fun l => (lineChunk l).isSome)).length := by
  have h1 : decodeEvents (ls.map StreamEvent.line) = ls.filterMap lineChunk := by
    simpa [decodeEvents] using decode_goodLines ls [] h
  refine ⟨h1, ?_⟩
  rw [h1]
  exact length_filterMap_eq_length_filter lineChunk ls

/-- Witness for C4 on a concrete stream with a malformed line, an empty
line and a done marker interleaved between two fragment lines. -/
theorem malformed_lines_never_terminate_witness :
    decodeEvents (["\x7b\"response\":\"a\"\x7d", "garbage", "",
        "\x7b\"done\":true\x7d", "\x7b\"response\":\"b\"\x7d"].map StreamEvent.line)
      = (["\x7b\"response\":\"a\"\x7d", "garbage", "",
        "\x7b\"done\":true\x7d", "\x7b\"response\":\"b\"\x7d"].filterMap lineChunk) :=
  (malformed_lines_never_terminate
    ["\x7b\"response\":\"a\"\x7d", "garbage", "",
      "\x7b\"done\":true\x7d", "\x7b\"response\":\"b\"\x7d"] (by decide)).1

/-- Counterexample to C5 as stated: a 2xx success status other than 200
(here 201, with a body carrying the completion `"4"`) is not returned as
the completion text — the code treats every non-200 status, 2xx included,
as the error case. -/
theorem non200_2xx_treated_as_error :
    chat (HttpOutcome.response 201 "\x7b\"response\": \"4\"\x7d")
      = Json.str ("Error: 201 - \x7b\"response\": \"4\"\x7d") ∧
    chat (HttpOutcome.response 201 "\x7b\"response\": \"4\"\x7d") ≠ Json.str "4" := by
  have h : chat (HttpOutcome.response 201 "\x7b\"response\": \"4\"\x7d")
      = Json.str ("Error: 201 - \x7b\"response\": \"4\"\x7d") := rfl
  refine ⟨h, ?_⟩
  rw [h]
  intro hcontra
  injection hcontra with hs
  exact absurd hs (by decide)

/-- C5 (amended): the non-streaming generate call returns by case analysis
on the server outcome — on HTTP status 200 (not any 2xx) it returns the
completion text extracted from the body, as in Scenario A where
`{"response": "4"}` yields exactly `"4"`; on any other status it returns
a failure string carrying the status code and the body text; on a
transport-level failure it returns a failure string carrying the cause
description — and every branch returns a value rather than raising. -/
theorem chat_result_cases :
    (∀ cause, chat (HttpOutcome.failure cause)
        = Json.str ("Connection error: " ++ cause)) ∧
    (∀ status body, status ≠ 200 →
      chat (HttpOutcome.response status body)
        = Json.str ("Error: " ++ toString status ++ " - " ++ body)) ∧
    (∀ body fields s, json_loads body = some (Json.obj fields) →
      jlookup fields "response" = some (Json.str s) →
      chat (HttpOutcome.response 200 body) = Json.str s) ∧
    chat (HttpOutcome.response 200 "\x7b\"response\": \"4\"\x7d") = Json.str "4" := by
  refine ⟨fun cause => rfl, ?_, ?_, rfl⟩
  · intro status body hs
    simp [chat, hs]
  · intro body fields s h1 h2
    simp [chat, h1, h2]

/-- Witness for C5 (amended) at a concrete non-200 status. -/
theorem chat_result_cases_witness :
    chat (HttpOutcome.response 404 "model not found") = Json.str "Error: 404 - model not found" :=
  chat_result_cases.2.1 404 "model not found" (by decide)

/-- C6: every probe outcome that is a raised request (network error,
timeout) or a non-2xx status makes `check_connection` return `false`
without raising, and whenever it is `false` the dispatch path of every
command makes no generation POST. -/
theorem probe_failure_blocks_dispatch (w : World) (c : Command) :
    (ProbeFails w.probe → check_connection w.probe = false) ∧
    (check_connection w.probe = false →
      Event.net NetCall.postGenerate ∉ commandEvents c w) := by
  constructor
  · intro hp
    cases hw : w.probe with
    | failure cause => rfl
    | response status body =>
      rw [hw] at hp
      have hs : status ≠ 200 := by
        intro h200
        subst h200
        exact hp ⟨by omega, by omega⟩
      simp [check_connection, hs]
  · intro hc
    cases c <;> simp [commandEvents, hc]

/-- Witness for C6 at a refused-connection probe and the single-message
chat command. -/
theorem probe_failure_blocks_dispatch_witness :
    check_connection (HttpOutcome.failure "connection refused") = false ∧
    Event.net NetCall.postGenerate ∉
      commandEvents (Command.chatSingle "hi")
        ⟨HttpOutcome.failure "connection refused", true, true⟩ :=
  ⟨(probe_failure_blocks_dispatch
      ⟨HttpOutcome.failure "connection refused", true, true⟩
      (Command.chatSingle "hi")).1 trivial,
    (probe_failure_blocks_dispatch
      ⟨HttpOutcome.failure "connection refused", true, true⟩
      (Command.chatSingle "hi")).2 rfl⟩

/-- C7: against a deterministic server that answers the same request
identically in both modes — its streamed lines are well-behaved and their
fragments concatenate to the very text the non-streamed body carries —
fully consuming the streaming generator and concatenating its chunks yields
exactly the string the non-streaming call returns. -/
theorem stream_concat_eq_generate (ls : List String) (body : String)
    (fields : List (String × Json))
    (h1 : ∀ l ∈ ls, serverLine l = true)
    (h2 : json_loads body = some (Json.obj fields))
    (h3 : jlookup fields "response"
        = some (Json.str (joinFrags (ls.filterMap lineFragStr)))) :
    concatChunks (chat_stream (StreamOutcome.stream (ls.map StreamEvent.line)))
      = some (joinFrags (ls.filterMap lineFragStr)) ∧
    chat (HttpOutcome.response 200 body)
      = Json.str (joinFrags (ls.filterMap lineFragStr)) := by
  constructor
  · have hg : ∀ l ∈ ls, goodLine l = true := fun l hl => serverLine_goodLine l (h1 l hl)
    have hd : decodeEvents (ls.map StreamEvent.line) = ls.filterMap lineChunk := by
      simpa [decodeEvents] using decode_goodLines ls [] hg
    have he : chat_stream (StreamOutcome.stream (ls.map StreamEvent.line))
        = decodeEvents (ls.map StreamEvent.line) := rfl
    rw [he, hd, filterMap_lineChunk_server ls h1, concatChunks_map_str]
  · simp [chat, h2, h3]

/-- Witness for C7 on the Scenario B stream and the matching non-streamed
body, both answering `"Hello"`. -/
theorem stream_concat_eq_generate_witness :
    concatChunks (chat_stream (StreamOutcome.stream
        (["\x7b\"response\":\"Hel\"\x7d", "\x7b\"response\":\"lo\"\x7d",
          "\x7b\"done\":true\x7d"].map StreamEvent.line)))
      = some "Hello" ∧
    chat (HttpOutcome.response 200 "\x7b\"response\":\"Hello\"\x7d")
      = Json.str "Hello" :=
  stream_concat_eq_generate
    ["\x7b\"response\":\"Hel\"\x7d", "\x7b\"response\":\"lo\"\x7d",
      "\x7b\"done\":true\x7d"]
    "\x7b\"response\":\"Hello\"\x7d" [("response", Json.str "Hello")]
    (by decide) rfl rfl

/-- Counterexample to C8 as stated: a catalog body whose `"models"` member
is not a list (malformed catalog data) is not turned into an empty
sequence — the member's value is passed through unvalidated. -/
theorem list_models_nonlist_passthrough :
    list_models (HttpOutcome.response 200 "\x7b\"models\": 5\x7d") = Json.num 5 ∧
    Json.num 5 ≠ Json.arr [] :=
  ⟨rfl, fun h => Json.noConfusion h⟩

/-- C8 (amended): `list_models` is a function of the server's response, so
two calls against an unchanged server return equal results; it returns an
empty sequence on an unreachable server, on a non-200 status and on a body
that is not valid JSON, and on a JSON-object body it returns the `"models"`
member's value unvalidated (defaulting to the empty sequence), even when
that value is not a list. -/
theorem list_models_cases :
    (∀ o1 o2 : HttpOutcome, o1 = o2 → list_models o1 = list_models o2) ∧
    (∀ cause, list_models (HttpOutcome.failure cause) = Json.arr []) ∧
    (∀ status body, status ≠ 200 →
      list_models (HttpOutcome.response status body) = Json.arr []) ∧
    (∀ body, json_loads body = none →
      list_models (HttpOutcome.response 200 body) = Json.arr []) ∧
    (∀ body fields v, json_loads body = some (Json.obj fields) →
      jlookup fields "models" = some v →
      list_models (HttpOutcome.response 200 body) = v) := by
  refine ⟨fun o1 o2 h => by rw [h], fun cause => rfl, ?_, ?_, ?_⟩
  · intro status body hs
    simp [list_models, hs]
  · intro body hb
    simp [list_models, hb]
  · intro body fields v h1 h2
    simp [list_models, h1, h2]

/-- Witness for C8 (amended) at a concrete non-200 status. -/
theorem list_models_cases_witness :
    list_models (HttpOutcome.response 500 "err") = Json.arr [] :=
  list_models_cases.2.2.1 500 "err" (by decide)

/-- C9: a 200 response whose JSON body lacks the `"response"` member makes
the non-streaming call return the literal string `"No response received"` —
a success-shaped value, indistinguishable from generated text: a body whose
completion happens to be that very sentence returns the same value. -/
theorem missing_response_field_default (body : String) (fields : List (String × Json))
    (h1 : json_loads body = some (Json.obj fields))
    (h2 : jlookup fields "response" = none) :
    chat (HttpOutcome.response 200 body) = Json.str "No response received" ∧
    chat (HttpOutcome.response 200 "\x7b\"response\": \"No response received\"\x7d")
      = Json.str "No response received" :=
  ⟨by simp [chat, h1, h2], rfl⟩

/-- Witness for C9 at the empty-object body. -/
theorem missing_response_field_default_witness :
    chat (HttpOutcome.response 200 "\x7b\x7d") = Json.str "No response received" :=
  (missing_response_field_default "\x7b\x7d" [] rfl rfl).1

/-- Counterexample to C10 as stated: a transport failure raised during
iteration, after a fragment has already been yielded, produces a sequence
of two chunks — the already-emitted fragment followed by the in-band error
chunk — not exactly one chunk. -/
theorem midstream_failure_extra_chunk :
    chat_stream (StreamOutcome.stream [StreamEvent.line "\x7b\"response\":\"Hel\"\x7d",
        StreamEvent.raiseExc "Connection reset by peer"])
      = [Json.str "Hel", Json.str "Connection error: Connection reset by peer"] ∧
    (chat_stream (StreamOutcome.stream [StreamEvent.line "\x7b\"response\":\"Hel\"\x7d",
        StreamEvent.raiseExc "Connection reset by peer"])).length = 2 :=
  ⟨rfl, rfl⟩

/-- C10 (amended): a transport-level failure in the streaming call is
delivered in-band and the generator never raises to its consumer: when the
request itself raises, the sequence is exactly the single chunk
`"Connection error: "` followed by the cause; when the failure occurs
during iteration, the chunks already produced come first and the sequence
ends with that single error chunk, consuming nothing further. -/
theorem stream_failure_in_band :
    (∀ cause, chat_stream (StreamOutcome.postFailure cause)
        = [Json.str ("Connection error: " ++ cause)]) ∧
    (∀ (ls : List String) (cause : String) (rest : List StreamEvent),
      (∀ l ∈ ls, goodLine l = true) →
      chat_stream (StreamOutcome.stream
          (ls.map StreamEvent.line ++ StreamEvent.raiseExc cause :: rest))
        = ls.filterMap lineChunk ++ [Json.str ("Connection error: " ++ cause)]) := by
  refine ⟨fun cause => rfl, ?_⟩
  intro ls cause rest h
  have he : chat_stream (StreamOutcome.stream
      (ls.map StreamEvent.line ++ StreamEvent.raiseExc cause :: rest))
      = decodeEvents (ls.map StreamEvent.line ++ StreamEvent.raiseExc cause :: rest) := rfl
  rw [he, decode_goodLines ls (StreamEvent.raiseExc cause :: rest) h]
  rfl

/-- Witness for C10 (amended): one fragment line followed by a raised read
yields the fragment and then the in-band error chunk. -/
theorem stream_failure_in_band_witness :
    chat_stream (StreamOutcome.stream [StreamEvent.line "\x7b\"response\":\"Hel\"\x7d",
        StreamEvent.raiseExc "timed out"])
      = [Json.str "Hel", Json.str "Connection error: timed out"] :=
  stream_failure_in_band.2 ["\x7b\"response\":\"Hel\"\x7d"] "timed out" [] (by decide)

end AiCli
